import Mathlib

/-!
# OpenXLSX: the document container `Impl::XLDocument`

A shallow embedding of `library/implementation/sources/XLDocument_Impl.cpp`:
property dispatch (`GetProperty`, `SetProperty`, `DeleteProperty`), the
document life cycle (`CloseDocument`, `SaveDocument`, `SaveDocumentAs`) and the
command/query dispatcher (`executeCommand`, `executeQuery`).

A `std::string` is a Lean `String` (the UTF-8 text it holds); `size()` counts its
bytes.  A member function that mutates the container returns an `Outcome`: the
value it returns or the exception it throws, together with the state it leaves.
Applying `->` to an empty `std::unique_ptr` is undefined behaviour and is recorded
as the distinguished fault `XLError.nullDereference`.
-/

namespace OpenXLSX

/-! ## `std::string` and `<cctype>` -/

/-- The `size()` of a `std::string`: its number of `char`s, the bytes of the
UTF-8 text. -/
def size (s : List Char) : Nat := (s.map Char.utf8Size).sum

/-- The `find(ch)` of a `std::string`: position of the first occurrence, `none` for `npos`. -/
def find : List Char → Char → Option Nat
  | [], _ => none
  | c :: cs, ch => if c = ch then some 0 else (find cs ch).map (· + 1)

/-- The `substr(pos)` of a `std::string`: the characters from `pos` to the end. -/
def substrFrom (s : List Char) (pos : Nat) : List Char := s.drop pos

/-- The `substr(0, n)` of a `std::string`: the first `n` characters. -/
def substrTo (s : List Char) (n : Nat) : List Char := s.take n

/-- The `isspace` of the "C" locale: space, and `\t \n \v \f \r`. -/
def isspace (c : Char) : Bool := c.toNat = 32 ∨ (9 ≤ c.toNat ∧ c.toNat ≤ 13)

/-- The `isdigit` of the "C" locale (also the class `\d`). -/
def isdigit (c : Char) : Bool := 48 ≤ c.toNat ∧ c.toNat ≤ 57

/-- The `isxdigit` of the "C" locale. -/
def isxdigit (c : Char) : Bool :=
  isdigit c ∨ (65 ≤ c.toNat ∧ c.toNat ≤ 70) ∨ (97 ≤ c.toNat ∧ c.toNat ≤ 102)

/-- The `tolower` of the "C" locale. -/
def tolower (c : Char) : Char :=
  if 65 ≤ c.toNat ∧ c.toNat ≤ 90 then Char.ofNat (c.toNat + 32) else c

/-- Value of one (hexadecimal) digit. -/
def digitValue (c : Char) : Nat :=
  if isdigit c then c.toNat - 48
  else if 97 ≤ c.toNat then c.toNat - 87
  else c.toNat - 55

/-- Value of a digit sequence in the given base. -/
def digitsValue (base : Nat) (ds : List Char) : Nat :=
  ds.foldl (fun acc c => acc * base + digitValue c) 0

/-! ## `std::stof`

`std::stof(str)` calls `strtof(str.c_str(), &end)`; it throws `std::invalid_argument`
when no conversion could be performed and `std::out_of_range` when `strtof` reports
`ERANGE`.  The subject sequence is the one of C11 §7.22.1.3: optional white space, an
optional sign, then `INF`/`INFINITY`, `NAN`, a hexadecimal or a decimal floating
constant; what follows the subject sequence is ignored. -/

/-- What `strtof` converts: the magnitude is `mantissa * base ^ exponent`. -/
inductive StofValue
  | infinity
  | nan
  | finite (mantissa : Nat) (base : Nat) (exponent : Int)
  deriving DecidableEq, Repr

/-- How `std::stof` ends. -/
inductive StofResult
  | converted
  | invalid_argument
  | out_of_range
  deriving DecidableEq, Repr

/-- Whether `ERANGE` is stored when the result underflows is implementation-defined
(C11 §7.22.1.3p10): the C library in use decides it for each tiny value
`mantissa * base ^ exponent`. -/
structure Libc where
  underflowIsRangeError : Nat → Nat → Int → Bool

/-- A C library that reports every underflow. -/
def Libc.reporting : Libc := ⟨fun _ _ _ => true⟩

/-- A C library that reports no underflow. -/
def Libc.silent : Libc := ⟨fun _ _ _ => false⟩

/-- Case-insensitive test that `s` starts with the lower-case word `word`. -/
def startsWithWord (word : List Char) (s : List Char) : Bool :=
  (s.take word.length).map tolower = word

/-- The exponent part `e[+-]digits` (marker `e`) or `p[+-]digits` (marker `p`) at the
head of `s`; `0` when `s` does not start with a complete exponent part. -/
def exponentPart (marker : Char) (s : List Char) : Int :=
  match s with
  | [] => 0
  | m :: rest =>
    if tolower m = marker then
      let negative := rest.head? = some '-'
      let digits := (if rest.head? = some '-' ∨ rest.head? = some '+' then rest.tail else rest).takeWhile isdigit
      if digits.isEmpty then 0
      else if negative then - (digitsValue 10 digits : Int) else (digitsValue 10 digits : Int)
    else 0

/-- A decimal floating constant at the head of `s`: a nonempty digit sequence
optionally containing the radix character, then an optional exponent part. -/
def decimalConstant (s : List Char) : Option StofValue :=
  let ip := s.takeWhile isdigit
  let r1 := s.dropWhile isdigit
  let hasRadix := r1.head? = some '.'
  let fp := if hasRadix then r1.tail.takeWhile isdigit else []
  let r2 := if hasRadix then r1.tail.dropWhile isdigit else r1
  if ip.isEmpty ∧ fp.isEmpty then none
  else some (.finite (digitsValue 10 (ip ++ fp)) 10 (exponentPart 'e' r2 - fp.length))

/-- A hexadecimal floating constant at the head of `s`, the `0x` already consumed:
a nonempty sequence of hexadecimal digits optionally containing the radix character,
then an optional binary exponent part. -/
def hexConstant (s : List Char) : Option StofValue :=
  let ip := s.takeWhile isxdigit
  let r1 := s.dropWhile isxdigit
  let hasRadix := r1.head? = some '.'
  let fp := if hasRadix then r1.tail.takeWhile isxdigit else []
  let r2 := if hasRadix then r1.tail.dropWhile isxdigit else r1
  if ip.isEmpty ∧ fp.isEmpty then none
  else some (.finite (digitsValue 16 (ip ++ fp)) 2 (exponentPart 'p' r2 - 4 * fp.length))

/-- The subject sequence of `strtof`, `none` when no conversion can be performed. -/
def strtofSubject (str : List Char) : Option StofValue :=
  let s := str.dropWhile isspace
  let body := if s.head? = some '+' ∨ s.head? = some '-' then s.tail else s
  if startsWithWord ['i', 'n', 'f'] body then some .infinity
  else if startsWithWord ['n', 'a', 'n'] body then some .nan
  else if startsWithWord ['0', 'x'] body then
    match hexConstant (body.drop 2) with
    | some v => some v
    | none => decimalConstant body
  else decimalConstant body

/-- The value `mantissa * base ^ exponent` rounds (to nearest) beyond `FLT_MAX`:
it is at least `(2^25 - 1) * 2^103`. -/
def overflows (mantissa base : Nat) (exponent : Int) : Bool :=
  if 0 ≤ exponent then (2 ^ 25 - 1) * 2 ^ 103 ≤ mantissa * base ^ exponent.toNat
  else (2 ^ 25 - 1) * 2 ^ 103 * base ^ (-exponent).toNat ≤ mantissa

/-- The value `mantissa * base ^ exponent` is nonzero and below `FLT_MIN = 2^-126`. -/
def underflows (mantissa base : Nat) (exponent : Int) : Bool :=
  if 0 ≤ exponent then false
  else 0 < mantissa ∧ mantissa * 2 ^ 126 < base ^ (-exponent).toNat

/-- Model of `std::stof(str)`, the converted value left out. -/
def stof (libc : Libc) (str : String) : StofResult :=
  match strtofSubject str.data with
  | none => .invalid_argument
  | some .infinity => .converted
  | some .nan => .converted
  | some (.finite m b e) =>
    if overflows m b e then .out_of_range
    else if underflows m b e && libc.underflowIsRangeError m b e then .out_of_range
    else .converted

/-! ## Errors and outcomes -/

/-- What a member function can end with instead of returning. -/
inductive XLError
  /-- The exception `XLException(what)` thrown by the container itself. -/
  | XLException (what : String)
  /-- A subsystem lookup that misses (`NotFound`). -/
  | NotFound
  /-- A failure of the archive or of a serialisation (`IOError`). -/
  | IOError
  /-- Undefined behaviour: `->` applied to an empty `std::unique_ptr`. -/
  | nullDereference
  deriving DecidableEq, Repr

/-- The exception of every rejected property value, the spec's `InvalidValue`. -/
def InvalidValue : XLError := .XLException "Invalid property value"

/-! ## The subsystems owned by the container -/

/-- Modelled from the spec: the Archive Adapter (class `XLArchive`, not in this file),
a container of named entries that is open or closed; closing releases the entries. -/
structure XLArchive where
  isOpen : Bool
  entries : List (String × String)
  deriving DecidableEq, Repr

/-- Modelled from the spec: `XLArchive::closeArchive`, "closes the Archive"; the
resources of the Open state are released. -/
def XLArchive.closeArchive (_ : XLArchive) : XLArchive := ⟨false, []⟩

/-- Modelled from the spec: one relationship of a Relationship Table. -/
structure XLRelationshipItem where
  id : String
  type : String
  target : String
  isExternal : Bool
  deriving DecidableEq, Repr

/-- Modelled from the spec: the Relationship Table (class `XLRelationships`). -/
structure XLRelationships where
  items : List XLRelationshipItem
  deriving DecidableEq, Repr

/-- Modelled from the spec: a resolved content type entry (class `XLContentItem`). -/
structure XLContentItem where
  path : String
  type : String
  deriving DecidableEq, Repr

/-- Modelled from the spec: the Content Type Registry (class `XLContentTypes`), the
`Default` rules by extension and the `Override` rules by exact path. -/
structure XLContentTypes where
  defaults : List (String × String)
  overrides : List (String × String)
  deriving DecidableEq, Repr

/-- Modelled from the spec: the extension of a path, the text after its last `.`. -/
def extension (path : String) : String :=
  String.mk ((path.data.reverse.takeWhile (· ≠ '.')).reverse)

/-- Modelled from the spec: `XLContentTypes::ContentItem`: "exact-path Override lookup
first; on miss, extract the path's extension and look up a Default; on miss, fail". -/
def XLContentTypes.ContentItem (ct : XLContentTypes) (path : String) : Except XLError XLContentItem :=
  match ct.overrides.lookup path with
  | some t => .ok ⟨path, t⟩
  | none =>
    match ct.defaults.lookup (extension path) with
    | some t => .ok ⟨path, t⟩
    | none => .error .NotFound

/-- Modelled from the spec: the text of the first element called `name` of a Property
Store, the empty text when there is none: "unset keys return empty text, not an error". -/
def elementText : List (String × String) → String → String
  | [], _ => ""
  | (k, t) :: rest, name => if k = name then t else elementText rest name

/-- Modelled from the spec: setting the text of the first element called `name` of a
Property Store, the element appended when there is none; no element is ever removed. -/
def setElementText : List (String × String) → String → String → List (String × String)
  | [], name, value => [(name, value)]
  | (k, t) :: rest, name, value =>
    if k = name then (k, value) :: rest else (k, t) :: setElementText rest name value

/-- Modelled from the spec: the fixed key set of the App-level Property Store. -/
def appSchema : List String :=
  ["Application", "Company", "Manager", "DocSecurity", "ScaleCrop", "SharedDoc",
   "HyperlinkBase", "HyperlinksChanged", "LinksUpToDate", "AppVersion"]

/-- Modelled from the spec: the fixed key set of the Core-level Property Store, under
the namespaced element names: creator, title, subject, description, keywords, category,
lastModifiedBy, lastPrinted, created and modified. -/
def coreSchema : List String :=
  ["dc:creator", "dc:title", "dc:subject", "dc:description", "cp:keywords", "cp:category",
   "cp:lastModifiedBy", "cp:lastPrinted", "dcterms:created", "dcterms:modified"]

/-- Modelled from the spec: the App Property Store (class `XLAppProperties`): the
property elements and the sheet-name records, one per sheet. -/
structure XLAppProperties where
  properties : List (String × String)
  sheetNames : List String
  deriving DecidableEq, Repr

/-- Modelled from the spec: the Core Property Store (class `XLCoreProperties`). -/
structure XLCoreProperties where
  properties : List (String × String)
  deriving DecidableEq, Repr

/-- Modelled from the spec: `XLAppProperties::Property(name).text().get()`: the text of a
schema key, `NotFound` for a key unknown to the schema. -/
def XLAppProperties.Property (app : XLAppProperties) (name : String) : Except XLError String :=
  if name ∈ appSchema then .ok (elementText app.properties name) else .error .NotFound

/-- Modelled from the spec: `XLAppProperties::SetProperty(name, value)`; "unknown keys
are rejected". -/
def XLAppProperties.SetProperty (app : XLAppProperties) (name value : String) :
    Except XLError XLAppProperties :=
  if name ∈ appSchema then .ok { app with properties := setElementText app.properties name value }
  else .error .NotFound

/-- Modelled from the spec: the rename of the sheet-name record equal to `oldName`
(the first one, sheet names being unique). -/
def renameFirst : List String → String → String → List String
  | [], _, _ => []
  | r :: rest, oldName, newName =>
    if r = oldName then newName :: rest else r :: renameFirst rest oldName newName

/-- Modelled from the spec: `XLAppProperties::SetSheetName(oldName, newName)`: "renames
the App-store record tracking a sheet's name". -/
def XLAppProperties.SetSheetName (app : XLAppProperties) (oldName newName : String) :
    XLAppProperties :=
  { app with sheetNames := renameFirst app.sheetNames oldName newName }

/-- Modelled from the spec: `XLCoreProperties::Property(name).text().get()`. -/
def XLCoreProperties.Property (core : XLCoreProperties) (name : String) : Except XLError String :=
  if name ∈ coreSchema then .ok (elementText core.properties name) else .error .NotFound

/-- Modelled from the spec: `XLCoreProperties::SetProperty(name, value)`. -/
def XLCoreProperties.SetProperty (core : XLCoreProperties) (name value : String) :
    Except XLError XLCoreProperties :=
  if name ∈ coreSchema then .ok { properties := setElementText core.properties name value }
  else .error .NotFound

/-! ## Commands and queries -/

/-- The command kinds of `XLCommandType` named by `executeCommand`; `other` stands for
any further enumerator, which reaches `default:`. -/
inductive XLCommandType
  | SetSheetColor
  | SetSheetName
  | DeleteSheet
  | CloneSheet
  | SetSheetVisibility
  | other (tag : Nat)
  deriving DecidableEq, Repr

/-- A command: kind, sender reference and parameter (class `XLCommand`). -/
structure XLCommand where
  commandType : XLCommandType
  sender : String
  parameter : String
  deriving DecidableEq, Repr

/-- The query kinds of `XLQueryType` named by `executeQuery`; `other` stands for any
further enumerator, which reaches `default:`. -/
inductive XLQueryType
  | GetSheetName
  | GetSheetIndex
  | GetSheetVisibility
  | other (tag : Nat)
  deriving DecidableEq, Repr

/-- A query: kind and sender reference (class `XLQuery`). -/
structure XLQuery where
  queryType : XLQueryType
  sender : String
  deriving DecidableEq, Repr

/-- Modelled from the spec: one sheet of the workbook: the identity a sender reference
names, the sheet's name and its visibility. -/
structure XLSheetRecord where
  sheetID : String
  name : String
  visibility : String
  deriving DecidableEq, Repr

/-- Modelled from the spec: the Workbook root object (class `XLWorkbook`). -/
structure XLWorkbook where
  sheets : List XLSheetRecord
  deriving DecidableEq, Repr

/-- Modelled from the spec: `XLWorkbook::getSheetName(sender)`: the name of the sheet
the sender reference names, the empty text when there is none. -/
def XLWorkbook.getSheetName (wb : XLWorkbook) (sender : String) : String :=
  match wb.sheets.find? (fun r => r.sheetID = sender) with
  | some r => r.name
  | none => ""

/-- Modelled from the spec: `XLWorkbook::executeCommand`: `SetSheetName` gives the
sender's sheet the name in the parameter, `SetSheetVisibility` its visibility. -/
def XLWorkbook.executeCommand (wb : XLWorkbook) (command : XLCommand) : XLWorkbook :=
  match command.commandType with
  | .SetSheetName =>
    ⟨wb.sheets.map fun r => if r.sheetID = command.sender then { r with name := command.parameter } else r⟩
  | .SetSheetVisibility =>
    ⟨wb.sheets.map fun r =>
      if r.sheetID = command.sender then { r with visibility := command.parameter } else r⟩
  | _ => wb

/-- Modelled from the spec: `XLWorkbook::queryCommand`: the name, the 1-based index or
the visibility of the sender's sheet. -/
def XLWorkbook.queryCommand (wb : XLWorkbook) (query : XLQuery) : String :=
  match query.queryType with
  | .GetSheetName => wb.getSheetName query.sender
  | .GetSheetIndex =>
    match wb.sheets.findIdx? (fun r => r.sheetID = query.sender) with
    | some i => toString (i + 1)
    | none => ""
  | .GetSheetVisibility =>
    match wb.sheets.find? (fun r => r.sheetID = query.sender) with
    | some r => r.visibility
    | none => ""
  | .other _ => ""

/-- The serialisation of each subsystem (`WriteXMLData`, which stores the XML text in
the archive) and the flush of the archive (`XLArchive::saveArchive`) are external
collaborators: each may change the archive and each may fail. -/
structure Collaborators where
  writeRelationships : XLRelationships → XLArchive → Except XLError XLArchive
  writeContentTypes : XLContentTypes → XLArchive → Except XLError XLArchive
  writeAppProperties : XLAppProperties → XLArchive → Except XLError XLArchive
  writeCoreProperties : XLCoreProperties → XLArchive → Except XLError XLArchive
  writeWorkbook : XLWorkbook → XLArchive → Except XLError XLArchive
  saveArchive : XLArchive → String → Except XLError XLArchive

namespace Impl

/-! ## `Impl::XLDocument` -/

/-- The property keys, enumeration `XLProperty` (named in the two `switch`es). -/
inductive XLProperty
  | Application
  | AppVersion
  | Category
  | Company
  | CreationDate
  | Creator
  | Description
  | DocSecurity
  | HyperlinkBase
  | HyperlinksChanged
  | Keywords
  | LastModifiedBy
  | LastPrinted
  | LinksUpToDate
  | Manager
  | ModificationDate
  | ScaleCrop
  | SharedDoc
  | Subject
  | Title
  deriving DecidableEq, Repr

/-- The data members of `Impl::XLDocument`; an empty `std::unique_ptr` is `none`. -/
structure XLDocument where
  m_archive : XLArchive
  m_filePath : String
  m_documentRelationships : Option XLRelationships
  m_contentTypes : Option XLContentTypes
  m_docAppProperties : Option XLAppProperties
  m_docCoreProperties : Option XLCoreProperties
  m_workbook : Option XLWorkbook
  deriving DecidableEq, Repr

/-- How a member function ends (`result`) and the container it leaves (`state`). -/
structure Outcome (α : Type) where
  result : Except XLError α
  state : XLDocument

/-- Sequencing of two statements: the second runs on the state the first leaves, and
only when the first returned. -/
def Outcome.andThen {α β : Type} (o : Outcome α) (next : α → XLDocument → Outcome β) : Outcome β :=
  match o.result with
  | .error e => ⟨.error e, o.state⟩
  | .ok a => next a o.state

namespace XLDocument

/-- The default constructor `XLDocument::XLDocument()`. -/
def construct : XLDocument :=
  { m_archive := ⟨false, []⟩
    m_filePath := ""
    m_documentRelationships := none
    m_contentTypes := none
    m_docAppProperties := none
    m_docCoreProperties := none
    m_workbook := none }

/-- Member function `XLDocument::CloseDocument`. -/
def CloseDocument (doc : XLDocument) : XLDocument :=
  let doc := { doc with m_archive := doc.m_archive.closeArchive }
  let doc := { doc with m_filePath := "" }
  let doc := { doc with m_documentRelationships := none }
  let doc := { doc with m_contentTypes := none }
  let doc := { doc with m_docAppProperties := none }
  let doc := { doc with m_docCoreProperties := none }
  { doc with m_workbook := none }

/-- One `m_x->WriteXMLData()` of `SaveDocumentAs`. -/
def WriteXMLData {σ : Type} (doc : XLDocument) (subsystem : Option σ)
    (write : σ → XLArchive → Except XLError XLArchive) : Outcome Unit :=
  match subsystem with
  | none => ⟨.error .nullDereference, doc⟩
  | some s =>
    match write s doc.m_archive with
    | .error e => ⟨.error e, doc⟩
    | .ok archive => ⟨.ok (), { doc with m_archive := archive }⟩

/-- Member function `XLDocument::SaveDocumentAs`. -/
def SaveDocumentAs (ext : Collaborators) (doc : XLDocument) (fileName : String) : Outcome Bool :=
  let doc := { doc with m_filePath := fileName }
  (WriteXMLData doc doc.m_documentRelationships ext.writeRelationships).andThen fun _ doc =>
  (WriteXMLData doc doc.m_contentTypes ext.writeContentTypes).andThen fun _ doc =>
  (WriteXMLData doc doc.m_docAppProperties ext.writeAppProperties).andThen fun _ doc =>
  (WriteXMLData doc doc.m_docCoreProperties ext.writeCoreProperties).andThen fun _ doc =>
  (WriteXMLData doc doc.m_workbook ext.writeWorkbook).andThen fun _ doc =>
  match ext.saveArchive doc.m_archive doc.m_filePath with
  | .error e => ⟨.error e, doc⟩
  | .ok archive => ⟨.ok true, { doc with m_archive := archive }⟩

/-- Member function `XLDocument::SaveDocument`. -/
def SaveDocument (ext : Collaborators) (doc : XLDocument) : Outcome Bool :=
  SaveDocumentAs ext doc doc.m_filePath

/-- Member function `XLDocument::DocumentName`. -/
def DocumentName (doc : XLDocument) : String := doc.m_filePath

/-- Member function `XLDocument::DocumentPath`. -/
def DocumentPath (doc : XLDocument) : String := doc.m_filePath

/-- The expression `m_docAppProperties->Property(name).text().get()`. -/
def appProperty (doc : XLDocument) (name : String) : Except XLError String :=
  match doc.m_docAppProperties with
  | none => .error .nullDereference
  | some app => app.Property name

/-- The expression `m_docCoreProperties->Property(name).text().get()`. -/
def coreProperty (doc : XLDocument) (name : String) : Except XLError String :=
  match doc.m_docCoreProperties with
  | none => .error .nullDereference
  | some core => core.Property name

/-- Member function `XLDocument::GetProperty`. -/
def GetProperty (doc : XLDocument) (theProperty : XLProperty) : Except XLError String :=
  match theProperty with
  | .Application => appProperty doc "Application"
  | .AppVersion => appProperty doc "AppVersion"
  | .Category => coreProperty doc "cp:category"
  | .Company => appProperty doc "Company"
  | .CreationDate => coreProperty doc "dcterms:created"
  | .Creator => coreProperty doc "dc:creator"
  | .Description => coreProperty doc "dc:description"
  | .DocSecurity => appProperty doc "DocSecurity"
  | .HyperlinkBase => appProperty doc "HyperlinkBase"
  | .HyperlinksChanged => appProperty doc "HyperlinksChanged"
  | .Keywords => coreProperty doc "cp:keywords"
  | .LastModifiedBy => coreProperty doc "cp:lastModifiedBy"
  | .LastPrinted => coreProperty doc "cp:lastPrinted"
  | .LinksUpToDate => appProperty doc "LinksUpToDate"
  | .Manager => appProperty doc "Manager"
  | .ModificationDate => coreProperty doc "dcterms:modified"
  | .ScaleCrop => appProperty doc "ScaleCrop"
  | .SharedDoc => appProperty doc "SharedDoc"
  | .Subject => coreProperty doc "dc:subject"
  | .Title => coreProperty doc "dc:title"

/-- The statement `m_docAppProperties->SetProperty(name, value);`. -/
def appSetProperty (doc : XLDocument) (name value : String) : Outcome Unit :=
  match doc.m_docAppProperties with
  | none => ⟨.error .nullDereference, doc⟩
  | some app =>
    match app.SetProperty name value with
    | .error e => ⟨.error e, doc⟩
    | .ok app => ⟨.ok (), { doc with m_docAppProperties := some app }⟩

/-- The statement `m_docCoreProperties->SetProperty(name, value);`. -/
def coreSetProperty (doc : XLDocument) (name value : String) : Outcome Unit :=
  match doc.m_docCoreProperties with
  | none => ⟨.error .nullDereference, doc⟩
  | some core =>
    match core.SetProperty name value with
    | .error e => ⟨.error e, doc⟩
    | .ok core => ⟨.ok (), { doc with m_docCoreProperties := some core }⟩

/-- The statement `throw XLException("Invalid property value");`. -/
def throwInvalid (doc : XLDocument) : Outcome Unit := ⟨.error InvalidValue, doc⟩

/-- Member function `XLDocument::SetProperty`; `libc` is the C library behind the
`std::stof` of the `AppVersion` case. -/
def SetProperty (libc : Libc) (doc : XLDocument) (theProperty : XLProperty) (value : String) :
    Outcome Unit :=
  match theProperty with
  | .Application => appSetProperty doc "Application" value
  | .AppVersion =>
    match stof libc value with
    | .converted =>
      match find value.data '.' with
      | some pos =>
        if ¬ (substrFrom value.data (pos + 1)).isEmpty ∧ size (substrFrom value.data (pos + 1)) ≤ 5 then
          if ¬ (substrTo value.data pos).isEmpty ∧ size (substrTo value.data pos) ≤ 2 then
            appSetProperty doc "AppVersion" value
          else throwInvalid doc
        else throwInvalid doc
      | none => throwInvalid doc
    | _ => throwInvalid doc
  | .Category => coreSetProperty doc "cp:category" value
  | .Company => appSetProperty doc "Company" value
  | .CreationDate => coreSetProperty doc "dcterms:created" value
  | .Creator => coreSetProperty doc "dc:creator" value
  | .Description => coreSetProperty doc "dc:description" value
  | .DocSecurity =>
    if value = "0" ∨ value = "1" ∨ value = "2" ∨ value = "4" ∨ value = "8" then
      appSetProperty doc "DocSecurity" value
    else throwInvalid doc
  | .HyperlinkBase => appSetProperty doc "HyperlinkBase" value
  | .HyperlinksChanged =>
    if value = "true" ∨ value = "false" then appSetProperty doc "HyperlinksChanged" value
    else throwInvalid doc
  | .Keywords => coreSetProperty doc "cp:keywords" value
  | .LastModifiedBy => coreSetProperty doc "cp:lastModifiedBy" value
  | .LastPrinted => coreSetProperty doc "cp:lastPrinted" value
  | .LinksUpToDate =>
    if value = "true" ∨ value = "false" then appSetProperty doc "LinksUpToDate" value
    else throwInvalid doc
  | .Manager => appSetProperty doc "Manager" value
  | .ModificationDate => coreSetProperty doc "dcterms:modified" value
  | .ScaleCrop =>
    if value = "true" ∨ value = "false" then appSetProperty doc "ScaleCrop" value
    else throwInvalid doc
  | .SharedDoc =>
    if value = "true" ∨ value = "false" then appSetProperty doc "SharedDoc" value
    else throwInvalid doc
  | .Subject => coreSetProperty doc "dc:subject" value
  | .Title => coreSetProperty doc "dc:title" value

/-- Member function `XLDocument::DeleteProperty`. -/
def DeleteProperty (libc : Libc) (doc : XLDocument) (theProperty : XLProperty) : Outcome Unit :=
  SetProperty libc doc theProperty ""

/-- The statement `m_workbook->executeCommand(command);`. -/
def workbookExecuteCommand (doc : XLDocument) (command : XLCommand) : Outcome Unit :=
  match doc.m_workbook with
  | none => ⟨.error .nullDereference, doc⟩
  | some wb => ⟨.ok (), { doc with m_workbook := some (wb.executeCommand command) }⟩

/-- The statement
`m_docAppProperties->SetSheetName(m_workbook->getSheetName(command.sender()), command.parameter());`. -/
def appSetSheetName (doc : XLDocument) (command : XLCommand) : Outcome Unit :=
  match doc.m_docAppProperties, doc.m_workbook with
  | some app, some wb =>
    ⟨.ok (), { doc with
      m_docAppProperties := some (app.SetSheetName (wb.getSheetName command.sender) command.parameter) }⟩
  | _, _ => ⟨.error .nullDereference, doc⟩

/-- Member function `XLDocument::setSheetName`. -/
def setSheetName (doc : XLDocument) (command : XLCommand) : Outcome Unit :=
  (appSetSheetName doc command).andThen fun _ doc =>
  workbookExecuteCommand doc command

/-- Member function `XLDocument::executeCommand`. -/
def executeCommand (doc : XLDocument) (command : XLCommand) : Outcome Unit :=
  match command.commandType with
  | .SetSheetColor => ⟨.ok (), doc⟩
  | .SetSheetName => setSheetName doc command
  | .DeleteSheet => ⟨.ok (), doc⟩
  | .CloneSheet => ⟨.ok (), doc⟩
  | .SetSheetVisibility => workbookExecuteCommand doc command
  | .other _ => ⟨.ok (), doc⟩

/-- The expression `m_workbook->queryCommand(query)`. -/
def workbookQueryCommand (doc : XLDocument) (query : XLQuery) : Except XLError String :=
  match doc.m_workbook with
  | none => .error .nullDereference
  | some wb => .ok (wb.queryCommand query)

/-- Member function `XLDocument::executeQuery`. -/
def executeQuery (doc : XLDocument) (query : XLQuery) : Except XLError String :=
  match query.queryType with
  | .GetSheetName => workbookQueryCommand doc query
  | .GetSheetIndex => workbookQueryCommand doc query
  | .GetSheetVisibility => workbookQueryCommand doc query
  | .other _ => .ok ""

/-- Member function `XLDocument::ContentItem`. -/
def ContentItem (doc : XLDocument) (path : String) : Except XLError XLContentItem :=
  match doc.m_contentTypes with
  | none => .error .nullDereference
  | some ct => ct.ContentItem path

/-! ## The vocabulary of the specification -/

/-- The container is `Open`: the archive is open and the five subsystems are present. -/
def Open (doc : XLDocument) : Prop :=
  doc.m_archive.isOpen = true ∧ doc.m_documentRelationships.isSome = true ∧
  doc.m_contentTypes.isSome = true ∧ doc.m_docAppProperties.isSome = true ∧
  doc.m_docCoreProperties.isSome = true ∧ doc.m_workbook.isSome = true

/-- The container is `Closed`: the archive is closed and holds no entry, no path is
bound and the five subsystems are absent. -/
def Closed (doc : XLDocument) : Prop :=
  doc.m_archive.isOpen = false ∧ doc.m_archive.entries = [] ∧ doc.m_filePath = "" ∧
  doc.m_documentRelationships = none ∧
  doc.m_contentTypes = none ∧ doc.m_docAppProperties = none ∧
  doc.m_docCoreProperties = none ∧ doc.m_workbook = none

/-- Every serialisation and the flush of the archive return, on every input. -/
def Succeed (ext : Collaborators) : Prop :=
  (∀ s a, ∃ b, ext.writeRelationships s a = .ok b) ∧ (∀ s a, ∃ b, ext.writeContentTypes s a = .ok b) ∧
  (∀ s a, ∃ b, ext.writeAppProperties s a = .ok b) ∧ (∀ s a, ∃ b, ext.writeCoreProperties s a = .ok b) ∧
  (∀ s a, ∃ b, ext.writeWorkbook s a = .ok b) ∧ (∀ a p, ∃ b, ext.saveArchive a p = .ok b)

/-- The six keys whose value is validated. -/
def validated : XLProperty → Bool
  | .AppVersion | .DocSecurity | .HyperlinksChanged | .LinksUpToDate | .ScaleCrop | .SharedDoc => true
  | _ => false

/-- The allowed set of an enumerated-value key, in the words of the specification:
the literal strings "true"/"false" for the Boolean-typed keys, the literal codes
"0", "1", "2", "4", "8" for DocSecurity. -/
def allowedValues : XLProperty → Option (List String)
  | .HyperlinksChanged | .LinksUpToDate | .ScaleCrop | .SharedDoc => some ["true", "false"]
  | .DocSecurity => some ["0", "1", "2", "4", "8"]
  | _ => none

/-- The pattern `\d{1,2}\.\d{1,5}` of the specification, matched in full. -/
def matchesAppVersionPattern (v : String) : Bool :=
  match v.data.dropWhile isdigit with
  | '.' :: fp =>
    decide (1 ≤ (v.data.takeWhile isdigit).length) && decide ((v.data.takeWhile isdigit).length ≤ 2) &&
    fp.all isdigit && decide (1 ≤ fp.length) && decide (fp.length ≤ 5)
  | _ => false

/-- The two Property Stores. -/
inductive PropertyStore
  | App
  | Core
  deriving DecidableEq, Repr

/-- The static routing table of the specification: the store that owns each key and the
element name of the key there (bare names for App, namespaced names for Core). -/
def routingTable : XLProperty → PropertyStore × String
  | .Application => (.App, "Application")
  | .AppVersion => (.App, "AppVersion")
  | .Category => (.Core, "cp:category")
  | .Company => (.App, "Company")
  | .CreationDate => (.Core, "dcterms:created")
  | .Creator => (.Core, "dc:creator")
  | .Description => (.Core, "dc:description")
  | .DocSecurity => (.App, "DocSecurity")
  | .HyperlinkBase => (.App, "HyperlinkBase")
  | .HyperlinksChanged => (.App, "HyperlinksChanged")
  | .Keywords => (.Core, "cp:keywords")
  | .LastModifiedBy => (.Core, "cp:lastModifiedBy")
  | .LastPrinted => (.Core, "cp:lastPrinted")
  | .LinksUpToDate => (.App, "LinksUpToDate")
  | .Manager => (.App, "Manager")
  | .ModificationDate => (.Core, "dcterms:modified")
  | .ScaleCrop => (.App, "ScaleCrop")
  | .SharedDoc => (.App, "SharedDoc")
  | .Subject => (.Core, "dc:subject")
  | .Title => (.Core, "dc:title")

/-- Reading the element a route names. -/
def readRoute (doc : XLDocument) (route : PropertyStore × String) : Except XLError String :=
  match route.1 with
  | .App => appProperty doc route.2
  | .Core => coreProperty doc route.2

/-- Writing the element a route names. -/
def writeRoute (doc : XLDocument) (route : PropertyStore × String) (value : String) : Outcome Unit :=
  match route.1 with
  | .App => appSetProperty doc route.2 value
  | .Core => coreSetProperty doc route.2 value

/-! ## Sample states -/

/-- An open document with one sheet. -/
def sampleDocument : XLDocument :=
  { m_archive := ⟨true, [("docProps/app.xml", ""), ("docProps/core.xml", "")]⟩
    m_filePath := "book1.xlsx"
    m_documentRelationships := some ⟨[⟨"rId1", "officeDocument", "xl/workbook.xml", false⟩]⟩
    m_contentTypes := some ⟨[("xml", "application/xml")], []⟩
    m_docAppProperties := some ⟨[("Application", "Microsoft Excel"), ("DocSecurity", "0")], ["Sheet1"]⟩
    m_docCoreProperties := some ⟨[("dc:title", "Q1 Report")]⟩
    m_workbook := some ⟨[⟨"rId1", "Sheet1", "visible"⟩]⟩ }

/-- Collaborators under which every serialisation succeeds, leaving the archive as it
is, and the flush of the archive fails. -/
def failingFlush : Collaborators :=
  { writeRelationships := fun _ a => .ok a
    writeContentTypes := fun _ a => .ok a
    writeAppProperties := fun _ a => .ok a
    writeCoreProperties := fun _ a => .ok a
    writeWorkbook := fun _ a => .ok a
    saveArchive := fun _ _ => .error .IOError }

/-! ## Life cycle -/

theorem sampleDocument_open : Open sampleDocument := by
  simp [Open, sampleDocument]

theorem construct_closed : Closed construct := by
  simp [Closed, construct]

/-- Claim C6. `CloseDocument` ends in the Closed state from every container state (archive
closed, no path bound, the five subsystems absent) and is idempotent; on a container
that is already Closed, the default-constructed one included, it changes nothing. -/
theorem CloseDocument_closed_idempotent (doc : XLDocument) :
    Closed doc.CloseDocument ∧ doc.CloseDocument.CloseDocument = doc.CloseDocument ∧
    (Closed doc → doc.CloseDocument = doc) ∧ construct.CloseDocument = construct := by
  refine ⟨?_, rfl, ?_, rfl⟩
  · simp [Closed, CloseDocument, XLArchive.closeArchive]
  · obtain ⟨⟨isOpen, entries⟩, path, rels, ct, app, core, wb⟩ := doc
    rintro ⟨h1, h2, h3, h4, h5, h6, h7, h8⟩
    simp only at h1 h2 h3 h4 h5 h6 h7 h8
    subst h1 h2 h3 h4 h5 h6 h7 h8
    rfl

theorem WriteXMLData_path {σ : Type} (doc : XLDocument) (subsystem : Option σ)
    (write : σ → XLArchive → Except XLError XLArchive) :
    (WriteXMLData doc subsystem write).state.m_filePath = doc.m_filePath := by
  unfold WriteXMLData
  cases subsystem with
  | none => rfl
  | some s => cases h : write s doc.m_archive <;> simp [h]

theorem andThen_path {α β : Type} (o : Outcome α) (next : α → XLDocument → Outcome β) (p : String)
    (ho : o.state.m_filePath = p)
    (hnext : ∀ a d, d.m_filePath = p → (next a d).state.m_filePath = p) :
    (o.andThen next).state.m_filePath = p := by
  unfold Outcome.andThen
  cases h : o.result with
  | error e => simpa using ho
  | ok a => simpa using hnext a o.state ho

theorem SaveDocumentAs_path (ext : Collaborators) (doc : XLDocument) (p : String) :
    (SaveDocumentAs ext doc p).state.m_filePath = p := by
  unfold SaveDocumentAs
  refine andThen_path _ _ p (by rw [WriteXMLData_path]) ?_
  intro _ d1 h1
  refine andThen_path _ _ p (by rw [WriteXMLData_path]; exact h1) ?_
  intro _ d2 h2
  refine andThen_path _ _ p (by rw [WriteXMLData_path]; exact h2) ?_
  intro _ d3 h3
  refine andThen_path _ _ p (by rw [WriteXMLData_path]; exact h3) ?_
  intro _ d4 h4
  refine andThen_path _ _ p (by rw [WriteXMLData_path]; exact h4) ?_
  intro _ d5 h5
  cases ext.saveArchive d5.m_archive d5.m_filePath <;> simpa using h5

theorem SaveDocumentAs_returns (ext : Collaborators) (doc : XLDocument) (p : String)
    (hopen : Open doc) (hext : Succeed ext) : (SaveDocumentAs ext doc p).result = .ok true := by
  obtain ⟨_, h1, h2, h3, h4, h5⟩ := hopen
  obtain ⟨rels, hrels⟩ := Option.isSome_iff_exists.mp h1
  obtain ⟨ct, hct⟩ := Option.isSome_iff_exists.mp h2
  obtain ⟨app, happ⟩ := Option.isSome_iff_exists.mp h3
  obtain ⟨core, hcore⟩ := Option.isSome_iff_exists.mp h4
  obtain ⟨wb, hwb⟩ := Option.isSome_iff_exists.mp h5
  obtain ⟨a1, e1⟩ := hext.1 rels doc.m_archive
  obtain ⟨a2, e2⟩ := hext.2.1 ct a1
  obtain ⟨a3, e3⟩ := hext.2.2.1 app a2
  obtain ⟨a4, e4⟩ := hext.2.2.2.1 core a3
  obtain ⟨a5, e5⟩ := hext.2.2.2.2.1 wb a4
  obtain ⟨a6, e6⟩ := hext.2.2.2.2.2 a5 p
  simp [SaveDocumentAs, WriteXMLData, Outcome.andThen, hrels, hct, happ, hcore, hwb, e1, e2, e3,
    e4, e5, e6]

/-- Claim C8. On an open container `SaveDocumentAs(p)` leaves `DocumentPath()` equal to `p`
whatever the five serialisations and the flush of the archive do (return or fail), it
returns true when they all return, and `SaveDocument()` is `SaveDocumentAs` at the
current path, so it leaves `DocumentPath()` as it was. -/
theorem SaveDocumentAs_rebinds_path (ext : Collaborators) (doc : XLDocument) (p : String)
    (hopen : Open doc) :
    (SaveDocumentAs ext doc p).state.DocumentPath = p ∧
    (Succeed ext → (SaveDocumentAs ext doc p).result = .ok true) ∧
    SaveDocument ext doc = SaveDocumentAs ext doc doc.DocumentPath ∧
    (SaveDocument ext doc).state.DocumentPath = doc.DocumentPath :=
  ⟨SaveDocumentAs_path ext doc p, SaveDocumentAs_returns ext doc p hopen, rfl,
    SaveDocumentAs_path ext doc doc.m_filePath⟩

theorem SaveDocumentAs_rebinds_path_witness :
    Open sampleDocument ∧
    (SaveDocumentAs failingFlush sampleDocument "copy.xlsx").result = .error .IOError ∧
    (SaveDocumentAs failingFlush sampleDocument "copy.xlsx").state.DocumentPath = "copy.xlsx" :=
  ⟨sampleDocument_open, rfl,
    (SaveDocumentAs_rebinds_path failingFlush sampleDocument "copy.xlsx" sampleDocument_open).1⟩

/-! ## Dispatch of commands and queries -/

/-- Claim C10. A command of any kind other than `SetSheetName` and `SetSheetVisibility`
returns without failing and leaves the whole container as it was, in every container
state; a query of any kind other than `GetSheetName`, `GetSheetIndex` and
`GetSheetVisibility` returns the empty text, whether or not a workbook is present. -/
theorem unhandled_requests_inert (doc : XLDocument) (command : XLCommand) (query : XLQuery)
    (hc1 : command.commandType ≠ .SetSheetName) (hc2 : command.commandType ≠ .SetSheetVisibility)
    (hq1 : query.queryType ≠ .GetSheetName) (hq2 : query.queryType ≠ .GetSheetIndex)
    (hq3 : query.queryType ≠ .GetSheetVisibility) :
    (executeCommand doc command).result = .ok () ∧ (executeCommand doc command).state = doc ∧
    executeQuery doc query = .ok "" := by
  obtain ⟨kind, sender, parameter⟩ := command
  obtain ⟨qkind, qsender⟩ := query
  cases kind <;> cases qkind <;> simp_all [executeCommand, executeQuery]

theorem unhandled_requests_inert_witness :
    (executeCommand construct ⟨.DeleteSheet, "rId1", ""⟩).result = .ok () ∧
    (executeCommand construct ⟨.DeleteSheet, "rId1", ""⟩).state = construct ∧
    executeQuery construct ⟨.other 0, "rId1"⟩ = .ok "" :=
  unhandled_requests_inert construct ⟨.DeleteSheet, "rId1", ""⟩ ⟨.other 0, "rId1"⟩
    (by decide) (by decide) (by decide) (by decide) (by decide)

/-! ## Property dispatch -/

theorem elementText_setElementText (l : List (String × String)) (name value : String) :
    elementText (setElementText l name value) name = value := by
  induction l with
  | nil => simp [setElementText, elementText]
  | cons kv rest ih =>
    obtain ⟨k, t⟩ := kv
    by_cases h : k = name
    · simp [setElementText, elementText, h]
    · simp [setElementText, elementText, h, ih]

theorem Open.app {doc : XLDocument} (h : Open doc) : ∃ app, doc.m_docAppProperties = some app :=
  Option.isSome_iff_exists.mp h.2.2.2.1

theorem Open.core {doc : XLDocument} (h : Open doc) : ∃ core, doc.m_docCoreProperties = some core :=
  Option.isSome_iff_exists.mp h.2.2.2.2.1

theorem appSetProperty_unchanged (doc : XLDocument) (name value : String) :
    (appSetProperty doc name value).result = .ok () ∨ (appSetProperty doc name value).state = doc := by
  unfold appSetProperty
  cases doc.m_docAppProperties with
  | none => exact Or.inr rfl
  | some app => cases h : app.SetProperty name value <;> simp [h]

theorem coreSetProperty_unchanged (doc : XLDocument) (name value : String) :
    (coreSetProperty doc name value).result = .ok () ∨ (coreSetProperty doc name value).state = doc := by
  unfold coreSetProperty
  cases doc.m_docCoreProperties with
  | none => exact Or.inr rfl
  | some core => cases h : core.SetProperty name value <;> simp [h]

theorem appSetProperty_schema (doc : XLDocument) (app : XLAppProperties) (name value : String)
    (happ : doc.m_docAppProperties = some app) (hname : name ∈ appSchema) :
    appSetProperty doc name value =
      ⟨.ok (), { doc with
        m_docAppProperties := some { app with properties := setElementText app.properties name value } }⟩ := by
  simp [appSetProperty, happ, XLAppProperties.SetProperty, hname]

theorem coreSetProperty_schema (doc : XLDocument) (core : XLCoreProperties) (name value : String)
    (hcore : doc.m_docCoreProperties = some core) (hname : name ∈ coreSchema) :
    coreSetProperty doc name value =
      ⟨.ok (), { doc with
        m_docCoreProperties := some { properties := setElementText core.properties name value } }⟩ := by
  simp [coreSetProperty, hcore, XLCoreProperties.SetProperty, hname]

theorem appSetProperty_then_get (doc : XLDocument) (name value : String)
    (h : (appSetProperty doc name value).result = .ok ()) :
    appProperty (appSetProperty doc name value).state name = .ok value := by
  unfold appSetProperty at h ⊢
  cases happ : doc.m_docAppProperties with
  | none => simp [happ] at h
  | some app =>
    by_cases hname : name ∈ appSchema
    · simp [XLAppProperties.SetProperty, hname, appProperty, XLAppProperties.Property,
        elementText_setElementText]
    · simp [happ, XLAppProperties.SetProperty, hname] at h

theorem coreSetProperty_then_get (doc : XLDocument) (name value : String)
    (h : (coreSetProperty doc name value).result = .ok ()) :
    coreProperty (coreSetProperty doc name value).state name = .ok value := by
  unfold coreSetProperty at h ⊢
  cases hcore : doc.m_docCoreProperties with
  | none => simp [hcore] at h
  | some core =>
    by_cases hname : name ∈ coreSchema
    · simp [XLCoreProperties.SetProperty, hname, coreProperty, XLCoreProperties.Property,
        elementText_setElementText]
    · simp [hcore, XLCoreProperties.SetProperty, hname] at h

theorem GetProperty_route (doc : XLDocument) (K : XLProperty) :
    GetProperty doc K = readRoute doc (routingTable K) := by
  cases K <;> rfl

theorem writeRoute_unchanged (doc : XLDocument) (route : PropertyStore × String) (v : String) :
    (writeRoute doc route v).result = .ok () ∨ (writeRoute doc route v).state = doc := by
  unfold writeRoute
  split
  · exact appSetProperty_unchanged _ _ _
  · exact coreSetProperty_unchanged _ _ _

theorem SetProperty_writes_or_throws (libc : Libc) (doc : XLDocument) (K : XLProperty) (v : String) :
    SetProperty libc doc K v = writeRoute doc (routingTable K) v ∨
    (validated K = true ∧ SetProperty libc doc K v = throwInvalid doc) := by
  cases K <;>
    first
    | exact Or.inl rfl
    | (simp only [SetProperty]
       repeat' split
       all_goals first | exact Or.inl rfl | exact Or.inr ⟨rfl, rfl⟩)

theorem SetProperty_unchanged (libc : Libc) (doc : XLDocument) (K : XLProperty) (v : String) :
    (SetProperty libc doc K v).result = .ok () ∨ (SetProperty libc doc K v).state = doc := by
  rcases SetProperty_writes_or_throws libc doc K v with h | ⟨_, h⟩ <;> rw [h]
  · exact writeRoute_unchanged _ _ _
  · exact Or.inr rfl

theorem SetProperty_route (libc : Libc) (doc : XLDocument) (K : XLProperty) (v : String)
    (h : (SetProperty libc doc K v).result = .ok ()) :
    SetProperty libc doc K v = writeRoute doc (routingTable K) v := by
  rcases SetProperty_writes_or_throws libc doc K v with h1 | ⟨_, h1⟩
  · exact h1
  · rw [h1] at h
    simp [throwInvalid] at h

theorem writeRoute_then_read (doc : XLDocument) (route : PropertyStore × String) (v : String)
    (h : (writeRoute doc route v).result = .ok ()) :
    readRoute (writeRoute doc route v).state route = .ok v := by
  unfold writeRoute readRoute at *
  split at h
  · exact appSetProperty_then_get _ _ _ h
  · exact coreSetProperty_then_get _ _ _ h

theorem routingTable_schema (K : XLProperty) :
    ((routingTable K).1 = .App → (routingTable K).2 ∈ appSchema) ∧
    ((routingTable K).1 = .Core → (routingTable K).2 ∈ coreSchema) := by
  cases K <;> simp [routingTable, appSchema, coreSchema]

theorem writeRoute_open (doc : XLDocument) (K : XLProperty) (v : String) (hopen : Open doc) :
    (writeRoute doc (routingTable K) v).result = .ok () := by
  obtain ⟨app, happ⟩ := hopen.app
  obtain ⟨core, hcore⟩ := hopen.core
  unfold writeRoute
  split
  · next hr => rw [appSetProperty_schema doc app _ v happ ((routingTable_schema K).1 hr)]
  · next hr => rw [coreSetProperty_schema doc core _ v hcore ((routingTable_schema K).2 hr)]

/-- Claim C5. `GetProperty` and `SetProperty` address the same store and the same element
for each of the 20 keys (the routing table): on an open document a value that
`SetProperty(K, v)` accepts is what a following `GetProperty(K)` returns, and a key
outside the six validated ones accepts every text. -/
theorem GetProperty_SetProperty_routing (libc : Libc) (doc : XLDocument) (K : XLProperty)
    (v : String) (hopen : Open doc) :
    GetProperty doc K = readRoute doc (routingTable K) ∧
    ((SetProperty libc doc K v).result = .ok () →
      SetProperty libc doc K v = writeRoute doc (routingTable K) v ∧
      GetProperty (SetProperty libc doc K v).state K = .ok v) ∧
    (validated K = false → (SetProperty libc doc K v).result = .ok ()) := by
  refine ⟨GetProperty_route doc K, fun h => ?_, fun hK => ?_⟩
  · have hr := SetProperty_route libc doc K v h
    refine ⟨hr, ?_⟩
    rw [GetProperty_route, hr]
    rw [hr] at h
    exact writeRoute_then_read doc _ v h
  · rcases SetProperty_writes_or_throws libc doc K v with h | ⟨hv, _⟩
    · rw [h]
      exact writeRoute_open doc K v hopen
    · rw [hK] at hv
      exact absurd hv (by decide)

theorem GetProperty_SetProperty_routing_witness :
    Open sampleDocument ∧
    (SetProperty Libc.reporting sampleDocument .Title "Q2 Report").result = .ok () ∧
    GetProperty (SetProperty Libc.reporting sampleDocument .Title "Q2 Report").state .Title =
      .ok "Q2 Report" :=
  have h := GetProperty_SetProperty_routing Libc.reporting sampleDocument .Title "Q2 Report"
    sampleDocument_open
  ⟨sampleDocument_open, h.2.2 rfl, (h.2.1 (h.2.2 rfl)).2⟩

/-- Claim C4. A `SetProperty(K, v)` that fails with the invalid-value error performed no
store write: the container, and so what `GetProperty` returns for every key, is exactly
as before the call. -/
theorem SetProperty_rejection_atomic (libc : Libc) (doc : XLDocument) (K : XLProperty)
    (v : String) (h : (SetProperty libc doc K v).result = .error InvalidValue) :
    (SetProperty libc doc K v).state = doc ∧
    ∀ K2, GetProperty (SetProperty libc doc K v).state K2 = GetProperty doc K2 := by
  have hs : (SetProperty libc doc K v).state = doc := by
    rcases SetProperty_unchanged libc doc K v with hok | hs
    · rw [hok] at h
      cases h
    · exact hs
  exact ⟨hs, fun K2 => by rw [hs]⟩

theorem SetProperty_rejection_atomic_witness :
    (SetProperty Libc.reporting sampleDocument .DocSecurity "3").result = .error InvalidValue ∧
    (SetProperty Libc.reporting sampleDocument .DocSecurity "3").state = sampleDocument ∧
    GetProperty (SetProperty Libc.reporting sampleDocument .DocSecurity "3").state .DocSecurity =
      .ok "0" :=
  have h := SetProperty_rejection_atomic Libc.reporting sampleDocument .DocSecurity "3" rfl
  ⟨rfl, h.1, by rw [h.2]; rfl⟩

/-- Claim C2. On an open document `SetProperty(K, v)` for an enumerated-value key `K`
succeeds if and only if `v` is in the allowed set of `K`, and fails with the
invalid-value error otherwise. -/
theorem SetProperty_enumerated (libc : Libc) (doc : XLDocument) (K : XLProperty)
    (allowed : List String) (v : String) (hopen : Open doc) (hK : allowedValues K = some allowed) :
    ((SetProperty libc doc K v).result = .ok () ↔ v ∈ allowed) ∧
    (v ∉ allowed → (SetProperty libc doc K v).result = .error InvalidValue) := by
  obtain ⟨app, happ⟩ := hopen.app
  cases K <;> simp [allowedValues] at hK <;> subst hK <;>
    simp only [SetProperty, List.mem_cons, List.mem_singleton, List.not_mem_nil, or_false] <;>
    split <;> rename_i hv <;>
    simp [hv, appSetProperty, happ, XLAppProperties.SetProperty, appSchema, throwInvalid]

theorem SetProperty_enumerated_witness :
    Open sampleDocument ∧ allowedValues .DocSecurity = some ["0", "1", "2", "4", "8"] ∧
    ((SetProperty Libc.reporting sampleDocument .DocSecurity "4").result = .ok () ↔
      "4" ∈ ["0", "1", "2", "4", "8"]) ∧
    ("3" ∉ ["0", "1", "2", "4", "8"] →
      (SetProperty Libc.reporting sampleDocument .DocSecurity "3").result = .error InvalidValue) :=
  ⟨sampleDocument_open, rfl,
    (SetProperty_enumerated Libc.reporting sampleDocument .DocSecurity _ "4" sampleDocument_open rfl).1,
    (SetProperty_enumerated Libc.reporting sampleDocument .DocSecurity _ "3" sampleDocument_open rfl).2⟩

/-- On an open document `DeleteProperty(K)` of a key that is not validated succeeds and
a following `GetProperty(K)` returns the empty text. -/
theorem DeleteProperty_unvalidated (libc : Libc) (doc : XLDocument) (K : XLProperty)
    (hopen : Open doc) (hK : validated K = false) :
    (DeleteProperty libc doc K).result = .ok () ∧
    GetProperty (DeleteProperty libc doc K).state K = .ok "" := by
  unfold DeleteProperty
  rcases SetProperty_writes_or_throws libc doc K "" with h | ⟨hv, _⟩
  · have hok := writeRoute_open doc K "" hopen
    rw [h, GetProperty_route]
    exact ⟨hok, writeRoute_then_read doc _ "" hok⟩
  · rw [hK] at hv
    exact absurd hv (by decide)

/-- Claim C3. `DeleteProperty(K)` of each of the six validated keys fails on an open document
with the invalid-value error and deletes nothing: the empty text does not pass the
validation of `SetProperty`. -/
theorem DeleteProperty_validated_key_fails :
    Open sampleDocument ∧
    (DeleteProperty Libc.silent sampleDocument .DocSecurity).result = .error InvalidValue ∧
    GetProperty (DeleteProperty Libc.silent sampleDocument .DocSecurity).state .DocSecurity = .ok "0" ∧
    (DeleteProperty Libc.silent sampleDocument .AppVersion).result = .error InvalidValue ∧
    (DeleteProperty Libc.silent sampleDocument .HyperlinksChanged).result = .error InvalidValue ∧
    (DeleteProperty Libc.silent sampleDocument .LinksUpToDate).result = .error InvalidValue ∧
    (DeleteProperty Libc.silent sampleDocument .ScaleCrop).result = .error InvalidValue ∧
    (DeleteProperty Libc.silent sampleDocument .SharedDoc).result = .error InvalidValue :=
  ⟨sampleDocument_open, rfl, rfl, rfl, rfl, rfl, rfl, rfl⟩

/-! ## The Closed container -/

theorem writeRoute_closed (doc : XLDocument) (route : PropertyStore × String) (v : String)
    (happ : doc.m_docAppProperties = none) (hcore : doc.m_docCoreProperties = none) :
    (writeRoute doc route v).result = .error .nullDereference := by
  unfold writeRoute
  split <;> simp [appSetProperty, coreSetProperty, happ, hcore]

theorem readRoute_closed (doc : XLDocument) (route : PropertyStore × String)
    (happ : doc.m_docAppProperties = none) (hcore : doc.m_docCoreProperties = none) :
    readRoute doc route = .error .nullDereference := by
  unfold readRoute
  split <;> simp [appProperty, coreProperty, happ, hcore]

/-- Claim C7 at a concrete input: on the default-constructed (Closed) container
`GetProperty(Title)` applies `->` to the empty `m_docCoreProperties`. -/
theorem GetProperty_closed_dereferences :
    Closed construct ∧ GetProperty construct .Title = .error .nullDereference :=
  ⟨construct_closed, rfl⟩

/-- Claim C7, amended. On a Closed container `GetProperty(K)`, `ContentItem(path)`,
`executeQuery` of the three handled kinds and `SaveDocument` each apply `->` to an absent
subsystem, and so does `SetProperty(K, v)` unless `K` is a validated key and `v` is
rejected: that call fails with the invalid-value error before any dereference. -/
theorem closed_container_accessors (libc : Libc) (ext : Collaborators) (doc : XLDocument)
    (K : XLProperty) (v path : String) (query : XLQuery) (hclosed : Closed doc) :
    GetProperty doc K = .error .nullDereference ∧
    ((SetProperty libc doc K v).result = .error .nullDereference ∨
      (validated K = true ∧ (SetProperty libc doc K v).result = .error InvalidValue)) ∧
    (validated K = false → (SetProperty libc doc K v).result = .error .nullDereference) ∧
    (∀ allowed, allowedValues K = some allowed →
      (v ∈ allowed → (SetProperty libc doc K v).result = .error .nullDereference) ∧
      (v ∉ allowed → (SetProperty libc doc K v).result = .error InvalidValue)) ∧
    ContentItem doc path = .error .nullDereference ∧
    (query.queryType = .GetSheetName ∨ query.queryType = .GetSheetIndex ∨
      query.queryType = .GetSheetVisibility → executeQuery doc query = .error .nullDereference) ∧
    (SaveDocument ext doc).result = .error .nullDereference := by
  obtain ⟨_, _, _, hrels, hct, happ, hcore, hwb⟩ := hclosed
  have hset := SetProperty_writes_or_throws libc doc K v
  refine ⟨?_, ?_, ?_, ?_, ?_, ?_, ?_⟩
  · rw [GetProperty_route]
    exact readRoute_closed doc _ happ hcore
  · rcases hset with h | ⟨hv, h⟩
    · exact Or.inl (by rw [h]; exact writeRoute_closed doc _ v happ hcore)
    · exact Or.inr ⟨hv, by rw [h]; rfl⟩
  · intro hK
    rcases hset with h | ⟨hv, _⟩
    · rw [h]
      exact writeRoute_closed doc _ v happ hcore
    · rw [hK] at hv
      exact absurd hv (by decide)
  · intro allowed hK
    cases K <;> simp [allowedValues] at hK <;> subst hK <;>
      simp only [SetProperty, List.mem_cons, List.mem_singleton, List.not_mem_nil, or_false] <;>
      split <;> rename_i hv <;> simp [hv, appSetProperty, happ, throwInvalid]
  · simp [ContentItem, hct]
  · intro hq
    obtain ⟨qkind, qsender⟩ := query
    simp only at hq
    rcases hq with h | h | h <;> subst h <;> simp [executeQuery, workbookQueryCommand, hwb]
  · simp [SaveDocument, SaveDocumentAs, WriteXMLData, hrels, Outcome.andThen]

theorem closed_container_accessors_witness :
    Closed construct ∧
    GetProperty construct .AppVersion = .error .nullDereference ∧
    (SetProperty Libc.silent construct .AppVersion "12.345").result = .error .nullDereference ∧
    (SetProperty Libc.silent construct .AppVersion "12").result = .error InvalidValue ∧
    ContentItem construct "xl/workbook.xml" = .error .nullDereference ∧
    executeQuery construct ⟨.GetSheetName, "rId1"⟩ = .error .nullDereference ∧
    (SaveDocument failingFlush construct).result = .error .nullDereference :=
  have h := closed_container_accessors Libc.silent failingFlush construct .AppVersion "12.345"
    "xl/workbook.xml" ⟨.GetSheetName, "rId1"⟩ construct_closed
  ⟨construct_closed, h.1, rfl, rfl, h.2.2.2.2.1, h.2.2.2.2.2.1 (Or.inl rfl), h.2.2.2.2.2.2⟩

/-! ## Renaming a sheet -/

theorem renameFirst_mem (l : List String) (oldName newName : String) (h : oldName ∈ l) :
    newName ∈ renameFirst l oldName newName := by
  induction l with
  | nil => simp at h
  | cons r rest ih =>
    by_cases hr : r = oldName
    · simp [renameFirst, hr]
    · have : oldName ∈ rest := by
        rcases List.mem_cons.mp h with h1 | h1
        · exact absurd h1.symm hr
        · exact h1
      simp [renameFirst, hr, ih this]

theorem renameFirst_pointwise (l : List String) (oldName newName : String) :
    List.Forall₂ (fun before after => after = before ∨ (before = oldName ∧ after = newName))
      l (renameFirst l oldName newName) := by
  induction l with
  | nil => exact List.Forall₂.nil
  | cons r rest ih =>
    by_cases hr : r = oldName
    · simp only [renameFirst, hr, if_true]
      exact List.Forall₂.cons (Or.inr ⟨rfl, rfl⟩) (List.forall₂_same.mpr fun _ _ => Or.inl rfl)
    · simp only [renameFirst, hr, if_false]
      exact List.Forall₂.cons (Or.inl rfl) ih

theorem getSheetName_after_rename (sheets : List XLSheetRecord) (s n : String)
    (h : ∃ r ∈ sheets, r.sheetID = s) :
    (XLWorkbook.executeCommand ⟨sheets⟩ ⟨.SetSheetName, s, n⟩).getSheetName s = n := by
  induction sheets with
  | nil => simp at h
  | cons r rest ih =>
    by_cases hr : r.sheetID = s
    · simp [XLWorkbook.executeCommand, XLWorkbook.getSheetName, hr]
    · have hrest : ∃ r ∈ rest, r.sheetID = s := by
        obtain ⟨x, hx, hxs⟩ := h
        rcases List.mem_cons.mp hx with h1 | h1
        · exact absurd (h1 ▸ hxs) hr
        · exact ⟨x, h1, hxs⟩
      have := ih hrest
      simp [XLWorkbook.executeCommand, XLWorkbook.getSheetName, hr] at this ⊢
      exact this

/-- Claim C9. `executeCommand` of `SetSheetName` (sender `s`, parameter `n`) first renames the
App store's sheet-name record from the name the Workbook reports for `s` before the
command to `n`, the workbook still untouched, and then delegates the command to the
Workbook: afterwards the Workbook reports `n` for `s`, the App store holds a record `n`
when it held the old name, and every App store record is as before or was the old name
and is now `n`. -/
theorem executeCommand_SetSheetName_two_phase (doc : XLDocument) (app : XLAppProperties)
    (wb : XLWorkbook) (s n : String)
    (happ : doc.m_docAppProperties = some app) (hwb : doc.m_workbook = some wb) :
    appSetSheetName doc ⟨.SetSheetName, s, n⟩ =
      ⟨.ok (), { doc with m_docAppProperties := some (app.SetSheetName (wb.getSheetName s) n) }⟩ ∧
    executeCommand doc ⟨.SetSheetName, s, n⟩ =
      ⟨.ok (), { doc with
        m_docAppProperties := some (app.SetSheetName (wb.getSheetName s) n)
        m_workbook := some (wb.executeCommand ⟨.SetSheetName, s, n⟩) }⟩ ∧
    ((∃ r ∈ wb.sheets, r.sheetID = s) →
      (wb.executeCommand ⟨.SetSheetName, s, n⟩).getSheetName s = n) ∧
    (wb.getSheetName s ∈ app.sheetNames →
      n ∈ (app.SetSheetName (wb.getSheetName s) n).sheetNames) ∧
    List.Forall₂ (fun before after => after = before ∨ (before = wb.getSheetName s ∧ after = n))
      app.sheetNames (app.SetSheetName (wb.getSheetName s) n).sheetNames := by
  refine ⟨?_, ?_, ?_, ?_, ?_⟩
  · simp [appSetSheetName, happ, hwb]
  · simp [executeCommand, setSheetName, appSetSheetName, workbookExecuteCommand, Outcome.andThen,
      happ, hwb]
  · exact getSheetName_after_rename wb.sheets s n
  · exact renameFirst_mem _ _ _
  · exact renameFirst_pointwise _ _ _

theorem executeCommand_SetSheetName_two_phase_witness :
    (executeCommand sampleDocument ⟨.SetSheetName, "rId1", "Sales"⟩).result = .ok () ∧
    (executeCommand sampleDocument ⟨.SetSheetName, "rId1", "Sales"⟩).state.m_docAppProperties =
      some ⟨[("Application", "Microsoft Excel"), ("DocSecurity", "0")], ["Sales"]⟩ ∧
    (executeCommand sampleDocument ⟨.SetSheetName, "rId1", "Sales"⟩).state.m_workbook =
      some ⟨[⟨"rId1", "Sales", "visible"⟩]⟩ :=
  have h := executeCommand_SetSheetName_two_phase sampleDocument
    ⟨[("Application", "Microsoft Excel"), ("DocSecurity", "0")], ["Sheet1"]⟩
    ⟨[⟨"rId1", "Sheet1", "visible"⟩]⟩ "rId1" "Sales" rfl rfl
  ⟨by rw [h.2.1], by rw [h.2.1]; rfl, by rw [h.2.1]; rfl⟩

/-! ## `SetProperty(AppVersion, v)` -/

theorem utf8Size_ascii (c : Char) (h : c.toNat ≤ 127) : c.utf8Size = 1 := by
  unfold Char.utf8Size
  have : c.val ≤ 127 := by
    rw [UInt32.le_def]
    exact h
  simp [this]

theorem size_pos_iff (s : List Char) : 1 ≤ size s ↔ s ≠ [] := by
  cases s with
  | nil => simp [size]
  | cons c cs =>
    have := Char.utf8Size_pos c
    simp [size]
    omega

theorem isdigit_iff (c : Char) : isdigit c = true ↔ 48 ≤ c.toNat ∧ c.toNat ≤ 57 := by
  simp [isdigit]

theorem size_digits (ds : List Char) (h : ∀ c ∈ ds, isdigit c = true) : size ds = ds.length := by
  induction ds with
  | nil => rfl
  | cons c cs ih =>
    have hc := (isdigit_iff c).mp (h c (List.mem_cons_self _ _))
    have hcs := ih fun x hx => h x (List.mem_cons_of_mem _ hx)
    simp only [size, List.map_cons, List.sum_cons, List.length_cons] at hcs ⊢
    rw [hcs, utf8Size_ascii c (by omega)]
    omega

theorem find_append (before after : List Char) (ch : Char) (h : ch ∉ before) :
    find (before ++ ch :: after) ch = some before.length := by
  induction before with
  | nil => simp [find]
  | cons c cs ih =>
    have hc : ¬ c = ch := fun e => h (e ▸ List.mem_cons_self _ _)
    have hcs : ch ∉ cs := fun e => h (List.mem_cons_of_mem _ e)
    simp [find, hc, ih hcs]

theorem find_some (s : List Char) (ch : Char) (pos : Nat) (h : find s ch = some pos) :
    s = s.take pos ++ ch :: s.drop (pos + 1) ∧ ch ∉ s.take pos := by
  induction s generalizing pos with
  | nil => simp [find] at h
  | cons c cs ih =>
    by_cases hc : c = ch
    · simp [find, hc] at h
      subst h
      simp [hc]
    · simp only [find, hc, if_false, Option.map_eq_some'] at h
      obtain ⟨q, hq, rfl⟩ := h
      obtain ⟨h1, h2⟩ := ih q hq
      refine ⟨?_, ?_⟩
      · simp only [List.take_succ_cons, List.drop_succ_cons, List.cons_append]
        rw [← h1]
      · simp only [List.take_succ_cons, List.mem_cons, not_or]
        exact ⟨fun e => hc e.symm, h2⟩

theorem takeWhile_append_stop {p : Char → Bool} (l r : List Char) (a : Char)
    (hl : ∀ c ∈ l, p c = true) (ha : p a = false) :
    (l ++ a :: r).takeWhile p = l ∧ (l ++ a :: r).dropWhile p = a :: r := by
  induction l with
  | nil => simp [List.takeWhile, List.dropWhile, ha]
  | cons c cs ih =>
    have hc := hl c (List.mem_cons_self _ _)
    have := ih fun x hx => hl x (List.mem_cons_of_mem _ hx)
    simp [List.takeWhile, List.dropWhile, hc, this]

theorem takeWhile_all {p : Char → Bool} (l : List Char) (hl : ∀ c ∈ l, p c = true) :
    l.takeWhile p = l ∧ l.dropWhile p = [] := by
  induction l with
  | nil => simp
  | cons c cs ih =>
    have hc := hl c (List.mem_cons_self _ _)
    have := ih fun x hx => hl x (List.mem_cons_of_mem _ hx)
    simp [List.takeWhile, List.dropWhile, hc, this]

theorem digitValue_le (c : Char) (h : isdigit c = true) : digitValue c ≤ 9 := by
  have := (isdigit_iff c).mp h
  simp only [digitValue, h, if_true]
  omega

theorem foldl_digits_lt (ds : List Char) (h : ∀ c ∈ ds, isdigit c = true) (acc : Nat) :
    ds.foldl (fun acc c => acc * 10 + digitValue c) acc < (acc + 1) * 10 ^ ds.length := by
  induction ds generalizing acc with
  | nil => simp
  | cons c cs ih =>
    have hc := digitValue_le c (h c (List.mem_cons_self _ _))
    have := ih (fun x hx => h x (List.mem_cons_of_mem _ hx)) (acc * 10 + digitValue c)
    simp only [List.foldl_cons, List.length_cons]
    calc List.foldl (fun acc c => acc * 10 + digitValue c) (acc * 10 + digitValue c) cs
        < (acc * 10 + digitValue c + 1) * 10 ^ cs.length := this
      _ ≤ ((acc + 1) * 10) * 10 ^ cs.length := Nat.mul_le_mul_right _ (by omega)
      _ = (acc + 1) * 10 ^ (cs.length + 1) := by rw [Nat.pow_succ]; ring

theorem digitsValue_lt (ds : List Char) (h : ∀ c ∈ ds, isdigit c = true) :
    digitsValue 10 ds < 10 ^ ds.length := by
  have := foldl_digits_lt ds h 0
  simpa [digitsValue] using this

theorem tolower_of_lt (c : Char) (h : c.toNat < 65) : tolower c = c := by
  unfold tolower
  rw [if_neg]
  omega

theorem digit_facts (c : Char) (h : isdigit c = true) :
    isspace c = false ∧ c ≠ '+' ∧ c ≠ '-' ∧ c ≠ '.' ∧ tolower c = c ∧
    c ≠ 'i' ∧ c ≠ 'n' ∧ c ≠ 'x' := by
  have hc := (isdigit_iff c).mp h
  refine ⟨?_, ?_, ?_, ?_, tolower_of_lt c (by omega), ?_, ?_, ?_⟩
  · simp [isspace]
    omega
  all_goals
    intro e
    subst e
    revert h
    decide

theorem startsWithWord_digit (word : List Char) (w : Char) (c : Char) (rest : List Char)
    (h : isdigit c = true) (hw : c ≠ w) : startsWithWord (w :: word) (c :: rest) = false := by
  have hc := digit_facts c h
  simp [startsWithWord, hc.2.2.2.2.1, hw]

theorem decimalConstant_digits (ip fp : List Char) (hne : ip ≠ [])
    (hip : ∀ c ∈ ip, isdigit c = true) (hfp : ∀ c ∈ fp, isdigit c = true) :
    decimalConstant (ip ++ '.' :: fp) =
      some (.finite (digitsValue 10 (ip ++ fp)) 10 (0 - (fp.length : Int))) := by
  have h1 := takeWhile_append_stop ip fp '.' hip (by decide)
  have h2 := takeWhile_all fp hfp
  simp [decimalConstant, h1.1, h1.2, h2.1, h2.2, hne, exponentPart]

theorem strtofSubject_digits (ip fp : List Char) (hne : ip ≠ [])
    (hip : ∀ c ∈ ip, isdigit c = true) (hfp : ∀ c ∈ fp, isdigit c = true) :
    strtofSubject (ip ++ '.' :: fp) =
      some (.finite (digitsValue 10 (ip ++ fp)) 10 (0 - (fp.length : Int))) := by
  obtain ⟨d, ip2, rfl⟩ := List.exists_cons_of_ne_nil hne
  have hd := hip d (List.mem_cons_self _ _)
  have hf := digit_facts d hd
  have hx : startsWithWord ['0', 'x'] (d :: ip2 ++ '.' :: fp) = false := by
    cases ip2 with
    | nil =>
      simp [startsWithWord, tolower_of_lt '.' (by decide)]
    | cons e ip3 =>
      have he := digit_facts e (hip e (by simp))
      simp [startsWithWord, he.2.2.2.2.1, he.2.2.2.2.2.2.2]
  have hdrop : (d :: ip2 ++ '.' :: fp).dropWhile isspace = d :: ip2 ++ '.' :: fp := by
    simp [List.dropWhile, hf.1]
  unfold strtofSubject
  simp only [hdrop]
  have hhead : (d :: ip2 ++ '.' :: fp).head? = some d := rfl
  simp only [hhead, Option.some.injEq, hf.2.1, hf.2.2.1, or_self, if_false]
  rw [show startsWithWord ['i', 'n', 'f'] (d :: ip2 ++ '.' :: fp) = false from
        startsWithWord_digit _ _ _ _ hd hf.2.2.2.2.2.1,
      show startsWithWord ['n', 'a', 'n'] (d :: ip2 ++ '.' :: fp) = false from
        startsWithWord_digit _ _ _ _ hd hf.2.2.2.2.2.2.1, hx]
  simpa using decimalConstant_digits (d :: ip2) fp hne hip hfp

theorem stof_digits (libc : Libc) (v : String) (ip fp : List Char) (hv : v.data = ip ++ '.' :: fp)
    (hip : ∀ c ∈ ip, isdigit c = true) (hfp : ∀ c ∈ fp, isdigit c = true)
    (h1 : 1 ≤ ip.length) (h2 : ip.length ≤ 2) (h3 : 1 ≤ fp.length) (h4 : fp.length ≤ 5) :
    stof libc v = .converted := by
  have hne : ip ≠ [] := by
    intro e
    simp [e] at h1
  have hm : digitsValue 10 (ip ++ fp) < 10 ^ 7 := by
    have := digitsValue_lt (ip ++ fp) (by
      intro c hc
      rcases List.mem_append.mp hc with h | h
      · exact hip c h
      · exact hfp c h)
    refine lt_of_lt_of_le this (Nat.pow_le_pow_right (by decide) ?_)
    simp
    omega
  have hpow : 10 ^ fp.length ≤ 10 ^ 5 := Nat.pow_le_pow_right (by decide) h4
  have hpos : 0 < 10 ^ fp.length := pow_pos (by decide) _
  have hneg : ¬ (0 : Int) ≤ 0 - (fp.length : Int) := by omega
  have hto : (-(0 - (fp.length : Int))).toNat = fp.length := by omega
  have hover : overflows (digitsValue 10 (ip ++ fp)) 10 (0 - (fp.length : Int)) = false := by
    simp only [overflows, hneg, if_false, hto, decide_eq_false_iff_not, not_le]
    calc digitsValue 10 (ip ++ fp) < 10 ^ 7 := hm
      _ ≤ (2 ^ 25 - 1) * 2 ^ 103 * 1 := by norm_num
      _ ≤ (2 ^ 25 - 1) * 2 ^ 103 * 10 ^ fp.length := Nat.mul_le_mul_left _ hpos
  have hunder : underflows (digitsValue 10 (ip ++ fp)) 10 (0 - (fp.length : Int)) = false := by
    simp only [underflows, hneg, if_false, hto, decide_eq_false_iff_not, not_and, not_lt]
    intro hm0
    calc 10 ^ fp.length ≤ 10 ^ 5 := hpow
      _ ≤ 1 * 2 ^ 126 := by norm_num
      _ ≤ digitsValue 10 (ip ++ fp) * 2 ^ 126 := Nat.mul_le_mul_right _ hm0
  unfold stof
  rw [hv, strtofSubject_digits ip fp hne hip hfp]
  simp only [hover, hunder, Bool.false_and, Bool.false_eq_true, if_false]

theorem pattern_split (v : String) (h : matchesAppVersionPattern v = true) :
    ∃ ip fp, v.data = ip ++ '.' :: fp ∧ (∀ c ∈ ip, isdigit c = true) ∧
      (∀ c ∈ fp, isdigit c = true) ∧ 1 ≤ ip.length ∧ ip.length ≤ 2 ∧ 1 ≤ fp.length ∧
      fp.length ≤ 5 := by
  unfold matchesAppVersionPattern at h
  split at h
  · next fp hdrop =>
    simp only [Bool.and_eq_true, decide_eq_true_eq, List.all_eq_true] at h
    refine ⟨v.data.takeWhile isdigit, fp, ?_, fun c hc => List.mem_takeWhile_imp hc, h.1.1.2, h.1.1.1.1,
      h.1.1.1.2, h.1.2, h.2⟩
    rw [← hdrop]
    exact (List.takeWhile_append_dropWhile isdigit v.data).symm
  · exact absurd h (by simp)

theorem SetProperty_AppVersion_accepts (libc : Libc) (doc : XLDocument) (v : String)
    (before after : List Char) (hstof : stof libc v = .converted)
    (hv : v.data = before ++ '.' :: after) (hdot : '.' ∉ before)
    (h1 : 1 ≤ size before) (h2 : size before ≤ 2) (h3 : 1 ≤ size after) (h4 : size after ≤ 5) :
    SetProperty libc doc .AppVersion v = appSetProperty doc "AppVersion" v := by
  have hfind : find v.data '.' = some before.length := by rw [hv]; exact find_append _ _ _ hdot
  have hto : substrTo v.data before.length = before := by simp [substrTo, hv]
  have hfrom : substrFrom v.data (before.length + 1) = after := by simp [substrFrom, hv]
  have hb : before ≠ [] := (size_pos_iff _).mp h1
  have ha : after ≠ [] := (size_pos_iff _).mp h3
  simp [SetProperty, hstof, hfind, hto, hfrom, hb, ha, h2, h4]

theorem SetProperty_AppVersion_shape (libc : Libc) (doc : XLDocument) (v : String)
    (h : (SetProperty libc doc .AppVersion v).result = .ok ()) :
    stof libc v = .converted ∧ ∃ before after, v.data = before ++ '.' :: after ∧ '.' ∉ before ∧
      1 ≤ size before ∧ size before ≤ 2 ∧ 1 ≤ size after ∧ size after ≤ 5 := by
  simp only [SetProperty] at h
  split at h
  · next hstof =>
    split at h
    · next pos hfind =>
      obtain ⟨hsplit, hnot⟩ := find_some _ _ _ hfind
      split at h
      · next hafter =>
        split at h
        · next hbefore =>
          simp only [List.isEmpty_iff] at hafter hbefore
          exact ⟨hstof, substrTo v.data pos, substrFrom v.data (pos + 1), hsplit, hnot,
            (size_pos_iff _).mpr hbefore.1, hbefore.2, (size_pos_iff _).mpr hafter.1, hafter.2⟩
        · simp [throwInvalid] at h
      · simp [throwInvalid] at h
    · simp [throwInvalid] at h
  · simp [throwInvalid] at h

/-- Claim C1 at a concrete input: on an open document `SetProperty(AppVersion, "-1.5")`
succeeds and stores "-1.5", which does not match `\d{1,2}\.\d{1,5}`. -/
theorem SetProperty_AppVersion_accepts_signed :
    Open sampleDocument ∧ matchesAppVersionPattern "-1.5" = false ∧
    (SetProperty Libc.reporting sampleDocument .AppVersion "-1.5").result = .ok () ∧
    GetProperty (SetProperty Libc.reporting sampleDocument .AppVersion "-1.5").state .AppVersion =
      .ok "-1.5" ∧
    (SetProperty Libc.silent sampleDocument .AppVersion "-1.5").result = .ok () :=
  ⟨sampleDocument_open, by decide, rfl, rfl, rfl⟩

/-- Claim C1, amended. On an open document `SetProperty(AppVersion, v)` succeeds, and writes
`v` to the App store's "AppVersion" element, if and only if `std::stof(v)` converts a
leading number without throwing and `v` contains a `.` with 1 to 2 bytes before the
first `.` and 1 to 5 bytes after it (digits or not); otherwise it fails with the
invalid-value error.  Every `v` that matches `\d{1,2}\.\d{1,5}` in full is accepted;
"12", "1.123456", "abc" and "1." are rejected and "12.345" is accepted. -/
theorem SetProperty_AppVersion (libc : Libc) (doc : XLDocument) (v : String) (hopen : Open doc) :
    ((SetProperty libc doc .AppVersion v).result = .ok () ↔
      stof libc v = .converted ∧ ∃ before after, v.data = before ++ '.' :: after ∧ '.' ∉ before ∧
        1 ≤ size before ∧ size before ≤ 2 ∧ 1 ≤ size after ∧ size after ≤ 5) ∧
    ((SetProperty libc doc .AppVersion v).result = .ok () →
      GetProperty (SetProperty libc doc .AppVersion v).state .AppVersion = .ok v) ∧
    ((SetProperty libc doc .AppVersion v).result ≠ .ok () →
      (SetProperty libc doc .AppVersion v).result = .error InvalidValue) ∧
    (matchesAppVersionPattern v = true → (SetProperty libc doc .AppVersion v).result = .ok ()) ∧
    (SetProperty libc doc .AppVersion "12").result = .error InvalidValue ∧
    (SetProperty libc doc .AppVersion "1.123456").result = .error InvalidValue ∧
    (SetProperty libc doc .AppVersion "abc").result = .error InvalidValue ∧
    (SetProperty libc doc .AppVersion "1.").result = .error InvalidValue ∧
    (SetProperty libc doc .AppVersion "12.345").result = .ok () := by
  have hwrite : ∀ w, (appSetProperty doc "AppVersion" w).result = .ok () :=
    fun w => writeRoute_open doc .AppVersion w hopen
  have hback : ∀ w, stof libc w = .converted →
      (∃ before after, w.data = before ++ '.' :: after ∧ '.' ∉ before ∧
        1 ≤ size before ∧ size before ≤ 2 ∧ 1 ≤ size after ∧ size after ≤ 5) →
      (SetProperty libc doc .AppVersion w).result = .ok () := by
    rintro w hs ⟨before, after, hw, hdot, h1, h2, h3, h4⟩
    rw [SetProperty_AppVersion_accepts libc doc w before after hs hw hdot h1 h2 h3 h4]
    exact hwrite w
  refine ⟨⟨SetProperty_AppVersion_shape libc doc v, fun h => hback v h.1 h.2⟩, ?_, ?_, ?_,
    rfl, rfl, rfl, rfl, ?_⟩
  · intro h
    have hr := SetProperty_route libc doc .AppVersion v h
    rw [GetProperty_route, hr]
    rw [hr] at h
    exact writeRoute_then_read doc _ v h
  · intro h
    rcases SetProperty_writes_or_throws libc doc .AppVersion v with hw | ⟨_, hw⟩
    · rw [hw] at h
      exact absurd (writeRoute_open doc .AppVersion v hopen) h
    · rw [hw]
      rfl
  · intro hp
    obtain ⟨ip, fp, hv, hip, hfp, h1, h2, h3, h4⟩ := pattern_split v hp
    refine hback v (stof_digits libc v ip fp hv hip hfp h1 h2 h3 h4) ⟨ip, fp, hv, ?_, ?_, ?_, ?_, ?_⟩
    · intro hmem
      exact absurd (hip _ hmem) (by decide)
    · rw [size_digits ip hip]; exact h1
    · rw [size_digits ip hip]; exact h2
    · rw [size_digits fp hfp]; exact h3
    · rw [size_digits fp hfp]; exact h4
  · exact hback "12.345" rfl ⟨['1', '2'], ['3', '4', '5'], rfl, by decide, by decide, by decide,
      by decide, by decide⟩

theorem SetProperty_AppVersion_witness :
    Open sampleDocument ∧
    ((SetProperty Libc.reporting sampleDocument .AppVersion "16.0300").result = .ok () ↔
      stof Libc.reporting "16.0300" = .converted ∧
      ∃ before after, "16.0300".data = before ++ '.' :: after ∧ '.' ∉ before ∧
        1 ≤ size before ∧ size before ≤ 2 ∧ 1 ≤ size after ∧ size after ≤ 5) ∧
    (SetProperty Libc.reporting sampleDocument .AppVersion "16.0300").result = .ok () :=
  have h := SetProperty_AppVersion Libc.reporting sampleDocument "16.0300" sampleDocument_open
  ⟨sampleDocument_open, h.1, h.2.2.2.1 (by decide)⟩

end XLDocument

end Impl

end OpenXLSX
